import Mathlib

/-
Verification development for the Auto-Prompt repository.

The repository consists of a licensing guard (AuthGuard in App.tsx) and a
script-generation service (a batched orchestrator embedded in App.tsx and a
single-shot variant in services/geminiService.ts).  This file gives a shallow
embedding of the license codec, the scene normalizer, the retry scheduler and
the batched orchestrator, and proves or refutes the frozen claims about them.

JavaScript strings are embedded as `List Char` (one entry per UTF-16 code
unit; all relevant data sits in the basic multilingual plane, where a code
unit is a code point).  JavaScript 32-bit integer arithmetic is embedded on
`Int` with an explicit reduction modulo 2^32.  The external AI transport is
an oracle parameter: a function from the request data that the source puts
into the prompt to the parsed response.
-/

-- ===========================================================================
-- JavaScript string and number primitives
-- ===========================================================================

/-- The character class of the JavaScript regexp `\s` (also the set trimmed by
`String.prototype.trim`): space, tab, LF, VT, FF, CR, NBSP, and the Unicode
space separators, line separators and BOM. -/
def isJsWs (c : Char) : Bool :=
  c = ' ' ∨ c = '\t' ∨ c = '\n' ∨ c.toNat = 11 ∨ c.toNat = 12 ∨ c = '\r' ∨
  c.toNat = 0xa0 ∨ c.toNat = 0x1680 ∨ (0x2000 ≤ c.toNat ∧ c.toNat ≤ 0x200a) ∨
  c.toNat = 0x2028 ∨ c.toNat = 0x2029 ∨ c.toNat = 0x202f ∨ c.toNat = 0x205f ∨
  c.toNat = 0x3000 ∨ c.toNat = 0xfeff

/-- ASCII decimal digit. -/
def isDigitC (c : Char) : Bool := '0' ≤ c ∧ c ≤ '9'

/-- Hexadecimal digit (either case), as accepted by `parseInt(_, 16)`. -/
def isHexDigitC (c : Char) : Bool :=
  isDigitC c ∨ ('a' ≤ c ∧ c ≤ 'f') ∨ ('A' ≤ c ∧ c ≤ 'F')

/-- Numeric value of a hexadecimal digit. -/
def hexDigitVal (c : Char) : Nat :=
  if isDigitC c then c.toNat - 48
  else if 'a' ≤ c ∧ c ≤ 'f' then c.toNat - 87
  else c.toNat - 55

/-- `String.prototype.toLowerCase` restricted to the ASCII and Latin-1
letters (the only case mappings the sources exercise: the none-sentinel
comparison words are ASCII plus Vietnamese letters in the Latin-1 block). -/
def jsLowerChar (c : Char) : Char :=
  if ('A' ≤ c ∧ c ≤ 'Z') ∨ (0xc0 ≤ c.toNat ∧ c.toNat ≤ 0xde ∧ c.toNat ≠ 0xd7) then
    Char.ofNat (c.toNat + 32)
  else c

/-- `String.prototype.toUpperCase` restricted to the ASCII and Latin-1
letters (license keys and hexadecimal signatures are ASCII). -/
def jsUpperChar (c : Char) : Char :=
  if ('a' ≤ c ∧ c ≤ 'z') ∨ (0xe0 ≤ c.toNat ∧ c.toNat ≤ 0xfe ∧ c.toNat ≠ 0xf7) then
    Char.ofNat (c.toNat - 32)
  else c

/-- `String.prototype.trim`: drop leading and trailing whitespace. -/
def trimJs (l : List Char) : List Char :=
  ((l.dropWhile isJsWs).reverse.dropWhile isJsWs).reverse

/-- The regexp replacement `.replace(/(\r\n|\n|\r)/gm, " ")`: every line
break (a CRLF pair, a lone LF, or a lone CR) becomes one space. -/
def replaceBreaks : List Char → List Char
  | [] => []
  | '\r' :: '\n' :: rest => ' ' :: replaceBreaks rest
  | '\n' :: rest => ' ' :: replaceBreaks rest
  | '\r' :: rest => ' ' :: replaceBreaks rest
  | c :: rest => c :: replaceBreaks rest

/-- Worker for `collapseWs`; the flag records whether the previous input
character belonged to a whitespace run that has already emitted its space. -/
def collapseWsAux : Bool → List Char → List Char
  | _, [] => []
  | inRun, c :: rest =>
    if isJsWs c then
      if inRun then collapseWsAux true rest
      else ' ' :: collapseWsAux true rest
    else c :: collapseWsAux false rest

/-- The regexp replacement `.replace(/\s+/g, " ")`: each maximal whitespace
run becomes a single space. -/
def collapseWs (l : List Char) : List Char := collapseWsAux false l

/-- Does `pat` occur at the head of `l`? -/
def beginsWith : List Char → List Char → Bool
  | [], _ => true
  | _ :: _, [] => false
  | p :: ps, c :: cs => p = c && beginsWith ps cs

/-- `String.prototype.includes`: does `pat` occur contiguously in `l`? -/
def containsSeq (pat : List Char) : List Char → Bool
  | [] => beginsWith pat []
  | c :: cs => beginsWith pat (c :: cs) || containsSeq pat cs

/-- Decimal value of a digit list (most significant first). -/
def natOfDigits (ds : List Char) : Nat :=
  ds.foldl (fun a c => a * 10 + (c.toNat - 48)) 0

/-- Hexadecimal value of a digit list (most significant first). -/
def hexValue (ds : List Char) : Nat :=
  ds.foldl (fun a c => a * 16 + hexDigitVal c) 0

/-- `parseInt(s, 16)`: skip whitespace, optional sign, optional `0x`/`0X`
prefix, then read the longest hexadecimal-digit prefix; no digits gives NaN,
embedded as `none`. -/
def jsParseHex (l : List Char) : Option Int :=
  let l1 := l.dropWhile isJsWs
  let sgn : Int := if l1.headD ' ' = '-' then -1 else 1
  let l2 := if l1.headD ' ' = '-' ∨ l1.headD ' ' = '+' then l1.tail else l1
  let l3 :=
    if l2.headD ' ' = '0' ∧ (l2.tail.headD ' ' = 'x' ∨ l2.tail.headD ' ' = 'X') then
      l2.tail.tail
    else l2
  let ds := l3.takeWhile isHexDigitC
  if ds = [] then none else some (sgn * (hexValue ds : Int))

/-- `parseInt(s, 10)`: skip whitespace, optional sign, then read the longest
decimal-digit prefix; no digits gives NaN, embedded as `none`. -/
def jsParseIntDec (l : List Char) : Option Int :=
  let l1 := l.dropWhile isJsWs
  let sgnRest : Int × List Char :=
    match l1 with
    | '+' :: r => (1, r)
    | '-' :: r => (-1, r)
    | _ => (1, l1)
  let ds := sgnRest.2.takeWhile isDigitC
  if ds = [] then none else some (sgnRest.1 * (natOfDigits ds : Int))

/-- Reduction of an integer to the signed 32-bit range, as performed by the
JavaScript `<<` and `&` operators (ToInt32). -/
def toInt32 (n : Int) : Int := (n + 2 ^ 31) % 2 ^ 32 - 2 ^ 31

/-- Worker for `hexOfNat`; the first argument is recursion fuel, always
sufficient because a number has fewer hexadecimal digits than its value. -/
def hexOfNatAux : Nat → Nat → List Char → List Char
  | 0, _, acc => acc
  | fuel + 1, n, acc =>
    if n < 16 then Nat.digitChar n :: acc
    else hexOfNatAux fuel (n / 16) (Nat.digitChar (n % 16) :: acc)

/-- `Number.prototype.toString(16)` for a nonnegative integer: lowercase
hexadecimal digits, `"0"` for zero. -/
def hexOfNat (n : Nat) : List Char := hexOfNatAux (n + 1) n []

-- ===========================================================================
-- License codec and guard (AuthGuard in App.tsx)
-- ===========================================================================

/-- The compile-time secret `APP_SECRET` of App.tsx. -/
def APP_SECRET : List Char := "SECRET_KEY_BRIDGE_8823_HASH".data

/-- The `simpleHash` closure of `verifyKeyOffline`:
`hash = ((hash << 5) - hash) + charCode; hash = hash & hash` over the code
units of the input, starting from 0; both bit operations reduce to the
signed 32-bit range. -/
def simpleHash (s : List Char) : Int :=
  s.foldl (fun h c => toInt32 (toInt32 (h * 32) - h + (c.toNat : Int))) 0

/-- Worker for `splitOnDash`, carrying the current segment reversed. -/
def splitOnDashAux : List Char → List Char → List (List Char)
  | [], acc => [acc.reverse]
  | c :: rest, acc =>
    if c = '-' then acc.reverse :: splitOnDashAux rest []
    else splitOnDashAux rest (c :: acc)

/-- `String.prototype.split('-')`. -/
def splitOnDash (l : List Char) : List (List Char) := splitOnDashAux l []

/-- `Math.abs(hash).toString(16).toUpperCase()` applied to a signature hash:
the expected signature segment recomputed from the expiry field and the type
code, exactly as `verifyKeyOffline` does. -/
def expectedSigOf (expHex typeCode : List Char) : List Char :=
  (hexOfNat (simpleHash (expHex ++ '-' :: (typeCode ++ APP_SECRET))).natAbs).map jsUpperChar

/-- The result object of `verifyKeyOffline`. -/
structure OfflineResult where
  valid : Bool
  message : List Char
deriving DecidableEq, Repr

/-- `verifyKeyOffline(keyString)` of App.tsx, with `Date.now()` made an
explicit parameter `now` (epoch milliseconds).  Splits on dashes, requires
exactly 4 segments with prefix `SK`, recomputes the signature, and then
rejects an expired key: a non-`LIFETIME` expiry field is `parseInt(_, 16)`
decoded and the key is rejected only when `now` is strictly greater than the
decoded value (a NaN decode compares false, so it does not reject). -/
def verifyKeyOffline (keyString : List Char) (now : Nat) : OfflineResult :=
  let parts := splitOnDash keyString
  if parts.length ≠ 4 ∨ parts.headD [] ≠ "SK".data then
    ⟨false, "Sai định dạng.".data⟩
  else
    let expHex := (parts.drop 1).headD []
    let typeCode := (parts.drop 2).headD []
    let signature := (parts.drop 3).headD []
    if signature ≠ expectedSigOf expHex typeCode then
      ⟨false, "Key không hợp lệ.".data⟩
    else if expHex ≠ "LIFETIME".data then
      match jsParseHex expHex with
      | some expiresAt => if (now : Int) > expiresAt then ⟨false, "Key đã hết hạn.".data⟩ else ⟨true, []⟩
      | none => ⟨true, []⟩
    else ⟨true, []⟩

/-- Outcome classification of `verifyKeyOnline` (App.tsx): `VALID` for a 2xx
body not carrying `valid:false`; `INVALID` for HTTP 403/404 or a 2xx body
with `valid:false` (carrying a message); `ERROR` for any other non-2xx
status; `NETWORK_ERROR` for timeout/connection failure. -/
inductive OnlineStatus where
  | VALID : OnlineStatus
  | INVALID : List Char → OnlineStatus
  | ERROR : OnlineStatus
  | NETWORK_ERROR : OnlineStatus
deriving DecidableEq, Repr

/-- The observable outcome of `checkSavedKey`: the unlock flag, the content
of the persisted key slot afterwards, and whether the offline verifier was
invoked. -/
structure CheckOutcome where
  unlocked : Bool
  stored : Option (List Char)
  offlineConsulted : Bool
deriving DecidableEq, Repr

/-- `checkSavedKey` of App.tsx: absent key leaves the guard locked; a present
key is verified online; `VALID` unlocks; `INVALID` removes the persisted key
and leaves the guard locked; any other outcome falls back to
`verifyKeyOffline`, unlocking exactly when that validates. -/
def checkSavedKey (stored : Option (List Char)) (online : List Char → OnlineStatus)
    (now : Nat) : CheckOutcome :=
  match stored with
  | none => ⟨false, none, false⟩
  | some k =>
    match online k with
    | .VALID => ⟨true, some k, false⟩
    | .INVALID _ => ⟨false, none, false⟩
    | .ERROR => ⟨(verifyKeyOffline k now).valid, some k, true⟩
    | .NETWORK_ERROR => ⟨(verifyKeyOffline k now).valid, some k, true⟩

/-- The observable outcome of `handleUnlock`: the unlock flag, the persisted
key slot afterwards, the inline error message, and whether the offline
verifier was invoked. -/
structure UnlockOutcome where
  unlocked : Bool
  stored : Option (List Char)
  error : List Char
  offlineConsulted : Bool
deriving DecidableEq, Repr

/-- `handleUnlock` of App.tsx: the input is trimmed and uppercased; an empty
result returns early without touching any state (`errPrior` is the error
message already on screen); otherwise the key is verified online; `VALID`
persists it and unlocks; `INVALID` surfaces the server message and stays
locked without consulting the offline verifier; any other outcome falls back
to `verifyKeyOffline`, persisting and unlocking on success and surfacing the
offline message otherwise. -/
def handleUnlock (keyInput : List Char) (stored : Option (List Char)) (errPrior : List Char)
    (online : List Char → OnlineStatus) (now : Nat) : UnlockOutcome :=
  let inputClean := (trimJs keyInput).map jsUpperChar
  if inputClean = [] then ⟨false, stored, errPrior, false⟩
  else
    match online inputClean with
    | .VALID => ⟨true, some inputClean, [], false⟩
    | .INVALID m => ⟨false, stored, m, false⟩
    | _ =>
      let offlineRes := verifyKeyOffline inputClean now
      if offlineRes.valid then ⟨true, some inputClean, [], true⟩
      else ⟨false, stored, offlineRes.message, true⟩

-- ===========================================================================
-- Scene data model and normalizer (mapJsonToScenes, two copies)
-- ===========================================================================

/-- The `time` sub-object of a raw scene; both fields may be absent. -/
structure RawTime where
  start : Option Nat
  «end» : Option Nat
deriving DecidableEq, Repr

/-- The `environment` sub-object of a raw scene.  `ambient_sound` may be an
array of strings (`Sum.inl`), a plain string (`Sum.inr`), or absent. -/
structure RawEnv where
  location : Option (List Char)
  weather : Option (List Char)
  ambient_sound : Option (List (List Char) ⊕ List Char)
deriving DecidableEq, Repr

/-- The `actions` sub-object of a raw character. -/
structure RawActions where
  body_movement : Option (List Char)
deriving DecidableEq, Repr

/-- One entry of the `characters` array of a raw scene. -/
structure RawChar where
  name : Option (List Char)
  appearance : Option (List Char)
  outfit : Option (List Char)
  emotion : Option (List Char)
  actions : Option RawActions
deriving DecidableEq, Repr

/-- The `camera` sub-object of a raw scene. -/
structure RawCamera where
  shot_type : Option (List Char)
  movement : Option (List Char)
deriving DecidableEq, Repr

/-- The `visual_style` sub-object of a raw scene. -/
structure RawStyle where
  style : Option (List Char)
  lighting : Option (List Char)
deriving DecidableEq, Repr

/-- The `dialogue` sub-object of a raw scene. -/
structure RawDialogue where
  line : Option (List Char)
  language : Option (List Char)
deriving DecidableEq, Repr

/-- One parsed scene item of the model response, before normalization.  Every
field may be absent, mirroring the loosely-typed JSON the sources receive. -/
structure RawScene where
  scene : Option Nat
  time : Option RawTime
  continuity_reference : Option (List Char)
  environment : Option RawEnv
  characters : Option (List RawChar)
  camera : Option RawCamera
  visual_style : Option RawStyle
  dialogue : Option RawDialogue
  wishk_prompt : Option (List Char)
deriving DecidableEq, Repr

instance : Inhabited RawScene := ⟨⟨none, none, none, none, none, none, none, none, none⟩⟩

/-- The none-sentinel word list of `cleanAttribute`, compared lowercased. -/
def sentinelWords : List (List Char) :=
  ["không có".data, "none".data, "n/a".data, "null".data, "".data, "unknown".data]

/-- The character class `[,.\s]` used by `cleanAttribute` to strip the edges. -/
def isPunctOrWs (c : Char) : Bool := c = ',' ∨ c = '.' ∨ isJsWs c

/-- The regexp replacement `.replace(/^[,.\s]+|[,.\s]+$/g, "")`: drop the
leading and trailing runs of commas, periods and whitespace. -/
def stripEdges (l : List Char) : List Char :=
  ((l.dropWhile isPunctOrWs).reverse.dropWhile isPunctOrWs).reverse

/-- `cleanAttribute(text)` (identical in both source files): empty or absent
text gives the empty string; after trimming, a none-sentinel word (compared
lowercased) gives the empty string; otherwise edge punctuation is stripped,
line breaks become spaces, and the result is trimmed again. -/
def cleanAttribute (t : Option (List Char)) : List Char :=
  match t with
  | none => []
  | some s =>
    if s = [] then []
    else
      let t1 := trimJs s
      if (t1.map jsLowerChar) ∈ sentinelWords then []
      else trimJs (replaceBreaks (stripEdges t1))

/-- `cleanForJson(text)` (identical in both source files): empty or absent
text gives the empty string; otherwise line breaks become spaces, whitespace
runs collapse to single spaces, and the result is trimmed. -/
def cleanForJson (t : Option (List Char)) : List Char :=
  match t with
  | none => []
  | some s => if s = [] then [] else trimJs (collapseWs (replaceBreaks s))

/-- Decimal rendering of a natural number, as JavaScript template literals
render integral numbers. -/
def natChars (n : Nat) : List Char := (Nat.repr n).data

/-- `item.scene || index + 1`: the reported scene number, with 0 and absence
both falsy and therefore replaced by the 1-based position. -/
def resolveScene (item : RawScene) (index : Nat) : Nat :=
  match item.scene with
  | some n => if n = 0 then index + 1 else n
  | none => index + 1

/-- The `timeLine` string: start and end default to 0 and 5. -/
def timeLineOf (item : RawScene) : List Char :=
  "Thời lượng: ".data ++ natChars ((item.time.bind RawTime.start).getD 0) ++
    "s - ".data ++ natChars ((item.time.bind RawTime.«end»).getD 5) ++ "s".data

/-- The first description segment: scene number and time window. -/
def sceneTimeSegment (item : RawScene) (index : Nat) : List Char :=
  "Cảnh ".data ++ natChars (resolveScene item index) ++ " (".data ++ timeLineOf item ++ ")".data

/-- The `continuityLine` of the App.tsx copy: empty when the cleaned
continuity reference is empty. -/
def continuitySegmentApp (item : RawScene) : List Char :=
  let continuity := cleanAttribute item.continuity_reference
  if continuity = [] then [] else "Continuity: ".data ++ continuity

/-- The `continuityLine` of the geminiService.ts copy: at positions after the
first, an empty cleaned continuity reference yields the placeholder
`Continuity: [Missing]`. -/
def continuitySegmentSvc (item : RawScene) (index : Nat) : List Char :=
  let continuity := cleanAttribute item.continuity_reference
  if continuity = [] then
    (if index > 0 then "Continuity: [Missing]".data else [])
  else "Continuity: ".data ++ continuity

/-- The cleaned `sounds` value: an array is cleaned elementwise and joined
with commas, a plain string is cleaned directly, absence cleans to empty. -/
def soundsOf (item : RawScene) : List Char :=
  match item.environment.bind RawEnv.ambient_sound with
  | some (Sum.inl arr) => List.intercalate ", ".data (arr.map (fun s => cleanAttribute (some s)))
  | some (Sum.inr s) => cleanAttribute (some s)
  | none => cleanAttribute none

/-- The `envLine` segment: location, weather and sounds, each pushed only
when nonempty, joined with pipes. -/
def envSegment (item : RawScene) : List Char :=
  let location := cleanAttribute (item.environment.bind RawEnv.location)
  let weather := cleanAttribute (item.environment.bind RawEnv.weather)
  let sounds := soundsOf item
  List.intercalate " | ".data
    ((if location = [] then [] else ["Địa điểm: ".data ++ location]) ++
     (if weather = [] then [] else ["Thời tiết: ".data ++ weather]) ++
     (if sounds = [] then [] else ["Âm thanh: ".data ++ sounds]))

/-- The per-character description inside the `charLine` segment. -/
def charDesc (c : RawChar) : List Char :=
  let nm := cleanAttribute c.name
  let app := cleanAttribute c.appearance
  let outfit := cleanAttribute c.outfit
  let emotion := cleanAttribute c.emotion
  let action := cleanAttribute (c.actions.bind RawActions.body_movement)
  let d1 := nm
  let d2 :=
    if app ≠ [] ∨ outfit ≠ [] then
      d1 ++ " [".data ++ List.intercalate ", ".data (([app, outfit]).filter (· ≠ [])) ++ "]".data
    else d1
  let d3 := if emotion ≠ [] then d2 ++ " (Cảm xúc: ".data ++ emotion ++ ")".data else d2
  if action ≠ [] then d3 ++ " -> Hành động: ".data ++ action else d3

/-- The `charLine` segment: present only when `characters` is an array and
the semicolon-joined descriptions are nonempty. -/
def charSegment (item : RawScene) : List Char :=
  match item.characters with
  | none => []
  | some chars =>
    let joined := List.intercalate "; ".data (chars.map charDesc)
    if joined = [] then [] else "Nhân vật: ".data ++ joined

/-- The `cameraLine` segment. -/
def cameraSegment (item : RawScene) : List Char :=
  let shotType := cleanAttribute (item.camera.bind RawCamera.shot_type)
  let camMove := cleanAttribute (item.camera.bind RawCamera.movement)
  if shotType ≠ [] ∨ camMove ≠ [] then
    "Camera: ".data ++ shotType ++ " | ".data ++ camMove
  else []

/-- The `styleLine` segment. -/
def styleSegment (item : RawScene) : List Char :=
  let styleName := cleanAttribute (item.visual_style.bind RawStyle.style)
  let lighting := cleanAttribute (item.visual_style.bind RawStyle.lighting)
  if styleName ≠ [] ∨ lighting ≠ [] then
    "Visual: ".data ++ styleName ++ " | Light: ".data ++ lighting
  else []

/-- The `dialogueLine` segment: a nonempty cleaned line is quoted with its
language; an empty one yields the fixed text `Thoại: Không có`. -/
def dialogueSegment (item : RawScene) : List Char :=
  let line := cleanAttribute (item.dialogue.bind RawDialogue.line)
  let lang := cleanAttribute (item.dialogue.bind RawDialogue.language)
  if line ≠ [] then
    "Thoại (".data ++ lang ++ "): \"".data ++ line ++ "\"".data
  else "Thoại: Không có".data

/-- The nested `characters[i].actions` object of the canonical JSON prompt. -/
structure PromptActions where
  body_movement : List Char
deriving DecidableEq, Repr

/-- One `characters` entry of the canonical JSON prompt. -/
structure PromptChar where
  name : List Char
  appearance : List Char
  outfit : List Char
  emotion : List Char
  actions : PromptActions
deriving DecidableEq, Repr

/-- The `environment` object of the canonical JSON prompt. -/
structure PromptEnv where
  location : List Char
  weather : List Char
  ambient_sound : List (List Char)
deriving DecidableEq, Repr

/-- The `camera` object of the canonical JSON prompt. -/
structure PromptCamera where
  shot_type : List Char
  movement : List Char
deriving DecidableEq, Repr

/-- The `visual_style` object of the canonical JSON prompt. -/
structure PromptStyle where
  style : List Char
  lighting : List Char
deriving DecidableEq, Repr

/-- The `dialogue` object of the canonical JSON prompt. -/
structure PromptDialogue where
  line : List Char
  language : List Char
deriving DecidableEq, Repr

/-- The canonical JSON prompt object (`jsonPrompt` in both copies).  The
source serializes it with `JSON.stringify`, a fixed injective serializer; it
is embedded structurally. -/
structure JsonPrompt where
  scene : Nat
  time : RawTime
  continuity_reference : List Char
  environment : PromptEnv
  characters : List PromptChar
  camera : PromptCamera
  visual_style : PromptStyle
  dialogue : PromptDialogue
deriving DecidableEq, Repr

/-- `jsonPrompt` as built identically by both copies: every textual field is
sanitized with `cleanForJson`; a missing `time` object defaults to
`{start: 0, end: 5}`; a non-array `ambient_sound` becomes `[]`. -/
def buildJsonPrompt (item : RawScene) (index : Nat) : JsonPrompt :=
  ⟨resolveScene item index,
   item.time.getD ⟨some 0, some 5⟩,
   cleanForJson item.continuity_reference,
   ⟨cleanForJson (item.environment.bind RawEnv.location),
    cleanForJson (item.environment.bind RawEnv.weather),
    match item.environment.bind RawEnv.ambient_sound with
    | some (Sum.inl arr) => arr.map (fun s => cleanForJson (some s))
    | _ => []⟩,
   (item.characters.getD []).map (fun c =>
     ⟨cleanForJson c.name, cleanForJson c.appearance, cleanForJson c.outfit,
      cleanForJson c.emotion, ⟨cleanForJson (c.actions.bind RawActions.body_movement)⟩⟩),
   ⟨cleanForJson (item.camera.bind RawCamera.shot_type),
    cleanForJson (item.camera.bind RawCamera.movement)⟩,
   ⟨cleanForJson (item.visual_style.bind RawStyle.style),
    cleanForJson (item.visual_style.bind RawStyle.lighting)⟩,
   ⟨cleanForJson (item.dialogue.bind RawDialogue.line),
    cleanForJson (item.dialogue.bind RawDialogue.language)⟩⟩

/-- The normalized Scene record returned by `mapJsonToScenes`. -/
structure Scene where
  scene_number : Nat
  script_description : List Char
  veo_prompt : JsonPrompt
  wishk_prompt : List Char
deriving DecidableEq, Repr

/-- The ordered segment list of the App.tsx description builder. -/
def segmentsApp (item : RawScene) (index : Nat) : List (List Char) :=
  [sceneTimeSegment item index, continuitySegmentApp item, envSegment item,
   charSegment item, cameraSegment item, styleSegment item, dialogueSegment item]

/-- The ordered segment list of the geminiService.ts description builder. -/
def segmentsSvc (item : RawScene) (index : Nat) : List (List Char) :=
  [sceneTimeSegment item index, continuitySegmentSvc item index, envSegment item,
   charSegment item, cameraSegment item, styleSegment item, dialogueSegment item]

/-- One normalized scene as built by the App.tsx copy of `mapJsonToScenes`:
the truthy segments joined with pipes, the canonical JSON prompt, and the
wishk prompt run through `cleanForJson` after `item.wishk_prompt || ""`. -/
def toSceneApp (index : Nat) (item : RawScene) : Scene :=
  ⟨resolveScene item index,
   List.intercalate " | ".data ((segmentsApp item index).filter (· ≠ [])),
   buildJsonPrompt item index,
   cleanForJson (some (item.wishk_prompt.getD []))⟩

/-- One normalized scene as built by the geminiService.ts copy of
`mapJsonToScenes`; it differs from `toSceneApp` only in the continuity
segment. -/
def toSceneSvc (index : Nat) (item : RawScene) : Scene :=
  ⟨resolveScene item index,
   List.intercalate " | ".data ((segmentsSvc item index).filter (· ≠ [])),
   buildJsonPrompt item index,
   cleanForJson (some (item.wishk_prompt.getD []))⟩

/-- `Array.prototype.map` with the element index, starting from the given
position. -/
def mapWithIdx {α β : Type} (f : Nat → α → β) : Nat → List α → List β
  | _, [] => []
  | i, x :: xs => f i x :: mapWithIdx f (i + 1) xs

namespace geminiService

/-- `mapJsonToScenes` of services/geminiService.ts. -/
def mapJsonToScenes (rawScenes : List RawScene) : List Scene :=
  mapWithIdx toSceneSvc 0 rawScenes

/-- `extendScript` of services/geminiService.ts, abstracted over the parsed
`scenes` array of the model response (`json.scenes || []`): normalizes it
and renumbers consecutively from `lastScene.scene_number + 1`. -/
def extendScript (lastScene : Scene) (rawScenes : List RawScene) : List Scene :=
  let startNum := lastScene.scene_number + 1
  let mapped := mapJsonToScenes rawScenes
  mapWithIdx (fun i s => { s with scene_number := startNum + i }) 0 mapped

end geminiService

namespace appTsx

/-- `mapJsonToScenes` of the service copy embedded in App.tsx. -/
def mapJsonToScenes (rawScenes : List RawScene) : List Scene :=
  mapWithIdx toSceneApp 0 rawScenes

/-- `extendScript` of the App.tsx copy, abstracted over the parsed `scenes`
array of the model response: normalizes it and renumbers consecutively from
`lastScene.scene_number + 1`. -/
def extendScript (lastScene : Scene) (rawScenes : List RawScene) : List Scene :=
  let startNum := lastScene.scene_number + 1
  let mapped := mapJsonToScenes rawScenes
  mapWithIdx (fun i s => { s with scene_number := startNum + i }) 0 mapped

end appTsx

-- ===========================================================================
-- Retry scheduler and batched orchestrator (App.tsx)
-- ===========================================================================

namespace appTsx

/-- Quota classification of `generateBatchWithRetry`: the combined error text
contains `429`, `quota` or `RESOURCE_EXHAUSTED` (case-sensitive). -/
def isQuota (errorString : List Char) : Bool :=
  containsSeq "429".data errorString || containsSeq "quota".data errorString ||
    containsSeq "RESOURCE_EXHAUSTED".data errorString

/-- Overload classification of `generateBatchWithRetry`: the combined error
text contains `503` or `overloaded` (case-sensitive). -/
def isOverloaded (errorString : List Char) : Bool :=
  containsSeq "503".data errorString || containsSeq "overloaded".data errorString

/-- Attempted match of `/retry in (\d+(\.\d+)?)s/` at the head of an already
lowercased text.  On success it returns `Math.ceil` of the captured decimal:
the integer part, plus one when the fractional digits are not all zero.  The
greedy scan is exhaustive: backtracking inside `\d+` can never help, because
the character after a greedy digit run is not a digit, while both `.` and
`s` are not digits either. -/
def adviceAt (l : List Char) : Option Nat :=
  match dropLit "retry in ".data l with
  | none => none
  | some rest =>
    let ds := rest.takeWhile isDigitC
    if ds = [] then none
    else
      match rest.drop ds.length with
      | '.' :: rest2 =>
        let fs := rest2.takeWhile isDigitC
        if fs = [] then none
        else
          match rest2.drop fs.length with
          | 's' :: _ => some (natOfDigits ds + (if fs.any (fun c => c ≠ '0') then 1 else 0))
          | _ => none
      | 's' :: _ => some (natOfDigits ds)
      | _ => none
where
  /-- Drop a literal pattern from the head of a list, or fail. -/
  dropLit : List Char → List Char → Option (List Char)
    | [], l => some l
    | _ :: _, [] => none
    | p :: ps, c :: cs => if c = p then dropLit ps cs else none

/-- The `SMART RETRY` extraction `errorString.match(/retry in (\d+(\.\d+)?)s/i)`
followed by `Math.ceil(parseFloat(match[1]))`: the text is matched
case-insensitively and the first (leftmost) occurrence wins. -/
def retryAdvice (errorString : List Char) : Option Nat :=
  scan (errorString.map jsLowerChar)
where
  /-- Leftmost-first scan over every start position. -/
  scan : List Char → Option Nat
    | [] => adviceAt []
    | c :: cs =>
      match adviceAt (c :: cs) with
      | some n => some n
      | none => scan cs

/-- The wait in milliseconds computed for a classified failure on (1-based)
attempt `attempt`: a service-advised `retry in N s` yields
`ceil(N)*1000 + 3000`; otherwise quota errors wait `20000 * attempt` and
overloaded errors wait `5000 * 2^(attempt-1)`. -/
def waitTimeFor (errorString : List Char) (attempt : Nat) : Nat :=
  match retryAdvice errorString with
  | some n => n * 1000 + 3000
  | none =>
    if isQuota errorString then 20000 * attempt
    else 5000 * 2 ^ (attempt - 1)

/-- The terminal error message thrown after the `while` loop of
`generateBatchWithRetry`. -/
def terminalRetryMessage : List Char :=
  "Không thể kết nối sau nhiều lần thử. Vui lòng kiểm tra Quota tài khoản Google của bạn.".data

/-- The retry loop of `generateBatchWithRetry`.  `calls k` is the outcome of
the (k+1)-th invocation of `generateBatch` (an error is its combined error
text).  The fuel equals `MAX_RETRIES - attempt`, so the `while` guard
`attempt < MAX_RETRIES` is exactly `fuel > 0`.  A success returns; a failure
increments `attempt`, and a classified failure with `attempt` still below the
ceiling waits `waitTimeFor` (recorded in order in the second component) and
retries; otherwise the original error is rethrown.  Exiting the loop throws
the terminal message. -/
def retryGo {α : Type} (calls : Nat → Except (List Char) α) :
    Nat → Nat → List Nat → Except (List Char) α × List Nat
  | 0, _, waits => (Except.error terminalRetryMessage, waits.reverse)
  | fuel + 1, attempt, waits =>
    match calls attempt with
    | Except.ok v => (Except.ok v, waits.reverse)
    | Except.error e =>
      let attempt' := attempt + 1
      if (isQuota e || isOverloaded e) && attempt' < 10 then
        retryGo calls fuel attempt' (waitTimeFor e attempt' :: waits)
      else (Except.error e, waits.reverse)

/-- `generateBatchWithRetry` with `MAX_RETRIES = 10`, starting from
`attempt = 0`: the final outcome together with the list of waits performed. -/
def generateBatchWithRetry {α : Type} (calls : Nat → Except (List Char) α) :
    Except (List Char) α × List Nat :=
  retryGo calls 10 0 []

/-- The runtime value found in `options.promptCount`: a number, a string, or
absent (`undefined`). -/
inductive PromptCount where
  | num : Int → PromptCount
  | str : List Char → PromptCount
  | undef : PromptCount
deriving DecidableEq, Repr

/-- The `VideoGenerationOptions` fields the generation path reads. -/
structure VideoGenerationOptions where
  idea : List Char
  videoStyle : List Char
  promptCount : PromptCount
  dialogueLanguage : List Char
  promptType : Option (List Char)
deriving DecidableEq, Repr

/-- The raw coercion of `options.promptCount`:
`typeof promptCount === 'string' ? parseInt(promptCount, 10) : promptCount`;
`none` embeds NaN (from an unparsable string or from `undefined`). -/
def rawTargetCount : PromptCount → Option Int
  | PromptCount.num n => some n
  | PromptCount.str s => jsParseIntDec s
  | PromptCount.undef => none

/-- `if (isNaN(targetCount) || targetCount <= 0) targetCount = 5`. -/
def resolveTargetCount (pc : PromptCount) : Int :=
  match rawTargetCount pc with
  | none => 5
  | some v => if v ≤ 0 then 5 else v

/-- The data `generateBatch` embeds in its prompt: the scene range, the
continuity context, the running story summary, and the user options other
than `promptCount` (which the batched prompt never mentions).  The transport
oracle of `generateScript` maps this request to a parsed response. -/
structure BatchRequest where
  startIndex : Nat
  count : Int
  previousContext : List Char
  storySummary : List Char
  idea : List Char
  videoStyle : List Char
  dialogueLanguage : List Char
deriving DecidableEq, Repr

/-- The parsed successful response of one batch:
`{scenes: json.scenes || [], summary: json.story_summary || ""}`. -/
structure BatchSuccess where
  scenes : List RawScene
  summary : List Char
deriving DecidableEq, Repr

/-- The renumbering step of `generateScript`:
`result.scenes.map((s, idx) => ({...s, scene: startIndex + idx}))`. -/
def renumber (startIndex : Nat) (scenes : List RawScene) : List RawScene :=
  mapWithIdx (fun idx s => { s with scene := some (startIndex + idx) }) 0 scenes

/-- The rolling state of the batch loop of `generateScript`. -/
structure GenState where
  allRaw : List RawScene
  storySummary : List Char
  previousContext : List Char
deriving DecidableEq, Repr

/-- The aggregated result `{story_summary, scenes}`. -/
structure Script where
  story_summary : List Char
  scenes : List Scene
deriving DecidableEq, Repr

/-- The observable outcome of `generateScript`: the returned script together
with the batch requests issued, in order. -/
structure GenOutcome where
  script : Script
  requests : List BatchRequest
deriving DecidableEq, Repr

/-- The continuity note built from the last corrected scene of a batch:
`Scene <n> ended at <location>. Action: <body movement>`. -/
def contextFrom (lastScene : RawScene) : List Char :=
  "Scene ".data ++ natChars (lastScene.scene.getD 0) ++ " ended at ".data ++
    (lastScene.environment.bind RawEnv.location).getD [] ++ ". Action: ".data ++
    ((lastScene.characters.bind (fun cs => cs.headD ⟨none, none, none, none, none⟩ |>.actions)).bind
      RawActions.body_movement).getD []

/-- The batch loop of `generateScript` (success path; any batch failure
aborts the whole call and is out of the scope of the orchestrator claims).
The first argument is the remaining batch count; `batch` is the 0-based loop
index.  Each iteration issues one request with
`startIndex = batch*10 + 1` and `count = min(10, targetCount - collected)`,
keeps only batch 0's summary, and — when the response holds at least one
scene — renumbers it onto `[startIndex, ...]`, appends it, and rebuilds the
continuity context from its last scene. -/
def genLoop (gen : BatchRequest → BatchSuccess) (idea videoStyle dialogueLanguage : List Char)
    (targetCount : Nat) : Nat → Nat → GenState → GenState × List BatchRequest
  | 0, _, st => (st, [])
  | remaining + 1, batch, st =>
    let startIndex := batch * 10 + 1
    let count : Int := min 10 ((targetCount : Int) - (st.allRaw.length : Int))
    let req : BatchRequest :=
      ⟨startIndex, count, st.previousContext, st.storySummary, idea, videoStyle, dialogueLanguage⟩
    let res := gen req
    let summary' := if batch = 0 then res.summary else st.storySummary
    if res.scenes.length > 0 then
      let corrected := renumber startIndex res.scenes
      let st' : GenState :=
        ⟨st.allRaw ++ corrected, summary', contextFrom (corrected.getLastD default)⟩
      let next := genLoop gen idea videoStyle dialogueLanguage targetCount remaining (batch + 1) st'
      (next.1, req :: next.2)
    else
      let st' : GenState := ⟨st.allRaw, summary', st.previousContext⟩
      let next := genLoop gen idea videoStyle dialogueLanguage targetCount remaining (batch + 1) st'
      (next.1, req :: next.2)

/-- `generateScript` of the App.tsx copy (batched), abstracted over the
transport oracle `gen`: resolves the target count, runs
`ceil(targetCount/10)` batches with `BATCH_SIZE = 10`, and normalizes the
accumulated raw scenes through `mapJsonToScenes`. -/
def generateScript (options : VideoGenerationOptions) (gen : BatchRequest → BatchSuccess) :
    GenOutcome :=
  let targetCount := (resolveTargetCount options.promptCount).toNat
  let totalBatches := (targetCount + 9) / 10
  let run := genLoop gen options.idea options.videoStyle options.dialogueLanguage
    targetCount totalBatches 0 ⟨[], [], []⟩
  ⟨⟨run.1.storySummary, mapJsonToScenes run.1.allRaw⟩, run.2⟩

end appTsx

-- ===========================================================================
-- Concrete inputs used by counterexamples and witnesses
-- ===========================================================================

/-- A raw scene item with every field absent. -/
def emptyRawScene : RawScene := default

/-- A concrete normalized scene numbered 23, used to instantiate the
extension claims. -/
def scene23 : Scene := ⟨23, [], buildJsonPrompt emptyRawScene 0, []⟩

/-- A compliant transport oracle: every batch request is answered with
exactly the requested number of (empty) scenes. -/
def compliantOracle : appTsx.BatchRequest → appTsx.BatchSuccess :=
  fun req => ⟨List.replicate req.count.toNat emptyRawScene, []⟩

/-- Concrete options requesting 23 scenes. -/
def options23 : appTsx.VideoGenerationOptions :=
  ⟨"idea".data, "style".data, appTsx.PromptCount.num 23, "vi".data, none⟩

/-- Concrete options with a non-numeric prompt count. -/
def optionsBadCount : appTsx.VideoGenerationOptions :=
  ⟨"idea".data, "style".data, appTsx.PromptCount.str "abc".data, "vi".data, none⟩

/-- No two adjacent whitespace characters (the binary relation whose
`List.Chain'` closure states the no-double-whitespace invariant). -/
def notTwoWs (a b : Char) : Prop := ¬(isJsWs a = true ∧ isJsWs b = true)

/-- The 22 hexadecimal digit characters. -/
def hexDigitChars : List Char := "0123456789abcdefABCDEF".data

-- ===========================================================================
-- Helper lemmas
-- ===========================================================================

theorem mapWithIdx_length {α β : Type} (f : Nat → α → β) :
    ∀ (i : Nat) (l : List α), (mapWithIdx f i l).length = l.length
  | _, [] => rfl
  | i, _ :: xs => by simp [mapWithIdx, mapWithIdx_length f (i + 1) xs]

theorem renumber_length (startIndex : Nat) (scenes : List RawScene) :
    (appTsx.renumber startIndex scenes).length = scenes.length :=
  mapWithIdx_length _ 0 scenes

theorem mapWithIdx_renumber_scene (s : Nat) :
    ∀ (l : List RawScene) (j : Nat),
      (mapWithIdx (fun idx it => { it with scene := some (s + idx) }) j l).map RawScene.scene
        = (List.range' (s + j) l.length).map some
  | [], _ => rfl
  | x :: xs, j => by
    simp only [mapWithIdx, List.map_cons, List.length_cons, List.range'_succ]
    refine congrArg₂ _ rfl ?_
    have := mapWithIdx_renumber_scene s xs (j + 1)
    simpa [Nat.add_assoc] using this

theorem renumber_map_scene (startIndex : Nat) (scenes : List RawScene) :
    (appTsx.renumber startIndex scenes).map RawScene.scene
      = (List.range' startIndex scenes.length).map some := by
  simpa using mapWithIdx_renumber_scene startIndex scenes 0

theorem mapWithIdx_scene_number_of_map_scene :
    ∀ (raw : List RawScene) (s n i : Nat), 1 ≤ s →
      raw.map RawScene.scene = (List.range' s n).map some →
      (mapWithIdx toSceneApp i raw).map Scene.scene_number = List.range' s n
  | [], s, n, _, _, h => by
    cases n with
    | zero => rfl
    | succ m => simp [List.range'_succ] at h
  | it :: rest, s, n, i, hs, h => by
    cases n with
    | zero => simp at h
    | succ m =>
      rw [List.range'_succ] at h ⊢
      simp only [List.map_cons, List.cons.injEq] at h
      obtain ⟨h1, h2⟩ := h
      simp only [mapWithIdx, List.map_cons, List.cons.injEq]
      constructor
      · show (toSceneApp i it).scene_number = s
        simp [toSceneApp, resolveScene, h1]
        omega
      · exact mapWithIdx_scene_number_of_map_scene rest (s + 1) m (i + 1) (by omega) h2

-- ===========================================================================
-- Claim C1
-- ===========================================================================

set_option maxHeartbeats 1000000 in
/-- Claim C1: for options with `promptCount = 23` and batch size 10, and a
transport returning exactly the requested number of scenes per batch,
`generateScript` issues exactly three batch requests asking for 10, 10 and 3
scenes, and the returned script holds exactly 23 scenes numbered
contiguously 1..23 regardless of the scene numbers the model reports; in
general `renumber` rewrites a batch onto the contiguous range starting at
`startIndex`. -/
theorem generateScript_batches_and_renumbering :
    (∀ (options : appTsx.VideoGenerationOptions) (gen : appTsx.BatchRequest → appTsx.BatchSuccess),
      options.promptCount = appTsx.PromptCount.num 23 →
      (∀ req, ((gen req).scenes).length = req.count.toNat) →
      (appTsx.generateScript options gen).requests.map (fun r => (r.startIndex, r.count))
          = [(1, 10), (11, 10), (21, 3)] ∧
      (appTsx.generateScript options gen).script.scenes.length = 23 ∧
      (appTsx.generateScript options gen).script.scenes.map Scene.scene_number
          = List.range' 1 23) ∧
    (∀ (startIndex : Nat) (scenes : List RawScene),
      (appTsx.renumber startIndex scenes).map RawScene.scene
        = (List.range' startIndex scenes.length).map some) := by
  refine ⟨?_, renumber_map_scene⟩
  intro options gen hpc hcomp
  have hres : appTsx.resolveTargetCount options.promptCount = 23 := by rw [hpc]; rfl
  have hscene :
      (appTsx.genLoop gen options.idea options.videoStyle options.dialogueLanguage 23 3 0
          ⟨[], [], []⟩).1.allRaw.map RawScene.scene = (List.range' 1 23).map some := by
    simp only [appTsx.genLoop, hcomp, renumber_length, List.nil_append, List.length_append,
      List.length_nil]
    norm_num
    simp only [renumber_map_scene, hcomp, show ((10 : Int).toNat) = 10 from rfl,
      show ((3 : Int).toNat) = 3 from rfl]
    rw [← List.map_append, ← List.map_append,
      show List.range' 1 10 ++ (List.range' 11 10 ++ List.range' 21 3) = List.range' 1 23 from by
        decide]
  have hgen : appTsx.generateScript options gen =
      ⟨⟨(appTsx.genLoop gen options.idea options.videoStyle options.dialogueLanguage 23 3 0
            ⟨[], [], []⟩).1.storySummary,
        appTsx.mapJsonToScenes
          (appTsx.genLoop gen options.idea options.videoStyle options.dialogueLanguage 23 3 0
            ⟨[], [], []⟩).1.allRaw⟩,
       (appTsx.genLoop gen options.idea options.videoStyle options.dialogueLanguage 23 3 0
          ⟨[], [], []⟩).2⟩ := by
    simp only [appTsx.generateScript, hres, show ((23 : Int).toNat) = 23 from rfl]
  have hlen :
      (appTsx.genLoop gen options.idea options.videoStyle options.dialogueLanguage 23 3 0
          ⟨[], [], []⟩).1.allRaw.length = 23 := by
    have := congrArg List.length hscene
    simpa using this
  refine ⟨?_, ?_, ?_⟩
  · rw [hgen]
    simp only [appTsx.genLoop, hcomp, renumber_length, List.nil_append, List.length_append,
      List.length_nil]
    norm_num
  · rw [hgen]
    show (appTsx.mapJsonToScenes _).length = 23
    rw [appTsx.mapJsonToScenes, mapWithIdx_length, hlen]
  · rw [hgen]
    exact mapWithIdx_scene_number_of_map_scene _ 1 23 0 (by norm_num) hscene

/-- Witness for claim C1: the compliant oracle on concrete options requesting
23 scenes yields the three requests of sizes 10, 10, 3 and 23 contiguously
numbered scenes. -/
theorem generateScript_batches_and_renumbering_witness :
    options23.promptCount = appTsx.PromptCount.num 23 ∧
    ((appTsx.generateScript options23 compliantOracle).requests.map
        (fun r => (r.startIndex, r.count)) = [(1, 10), (11, 10), (21, 3)] ∧
     (appTsx.generateScript options23 compliantOracle).script.scenes.length = 23 ∧
     (appTsx.generateScript options23 compliantOracle).script.scenes.map Scene.scene_number
        = List.range' 1 23) :=
  ⟨rfl, generateScript_batches_and_renumbering.1 options23 compliantOracle rfl
    (fun req => by simp [compliantOracle])⟩

-- ===========================================================================
-- Claim C2
-- ===========================================================================

/-- Claim C2: an authoritative online INVALID outcome makes `checkSavedKey`
clear the persisted key and stay locked without invoking the offline
verifier; for both `checkSavedKey` and `handleUnlock` the offline verifier
is consulted exactly when the online outcome is indeterminate (ERROR or
NETWORK_ERROR), and `handleUnlock` on INVALID surfaces the message, stays
locked, and does not consult the offline verifier. -/
theorem guard_never_falls_back_on_invalid :
    (∀ (k m : List Char) (now : Nat),
      checkSavedKey (some k) (fun _ => OnlineStatus.INVALID m) now = ⟨false, none, false⟩) ∧
    (∀ (k : List Char) (online : List Char → OnlineStatus) (now : Nat),
      ((checkSavedKey (some k) online now).offlineConsulted = true ↔
        (online k = OnlineStatus.ERROR ∨ online k = OnlineStatus.NETWORK_ERROR))) ∧
    (∀ (input : List Char) (stored : Option (List Char)) (errPrior m : List Char)
        (online : List Char → OnlineStatus) (now : Nat),
      (trimJs input).map jsUpperChar ≠ [] →
      online ((trimJs input).map jsUpperChar) = OnlineStatus.INVALID m →
      handleUnlock input stored errPrior online now = ⟨false, stored, m, false⟩) ∧
    (∀ (input : List Char) (stored : Option (List Char)) (errPrior : List Char)
        (online : List Char → OnlineStatus) (now : Nat),
      ((handleUnlock input stored errPrior online now).offlineConsulted = true ↔
        ((trimJs input).map jsUpperChar ≠ [] ∧
          (online ((trimJs input).map jsUpperChar) = OnlineStatus.ERROR ∨
           online ((trimJs input).map jsUpperChar) = OnlineStatus.NETWORK_ERROR)))) := by
  refine ⟨?_, ?_, ?_, ?_⟩
  · intro k m now
    simp [checkSavedKey]
  · intro k online now
    cases h : online k <;> simp [checkSavedKey, h]
  · intro input stored errPrior m online now hne hinv
    simp [handleUnlock, hne, hinv]
  · intro input stored errPrior online now
    by_cases hne : (trimJs input).map jsUpperChar = []
    · simp [handleUnlock, hne]
    · cases h : online ((trimJs input).map jsUpperChar) <;>
        simp [handleUnlock, hne, h] <;> split <;> simp

/-- Witness for claim C2: a concrete stored key declared INVALID online is
cleared without offline fallback, and a concrete submitted key declared
INVALID online surfaces the message without offline fallback. -/
theorem guard_never_falls_back_on_invalid_witness :
    checkSavedKey (some "SK-A-V-6C1C7BC5".data) (fun _ => OnlineStatus.INVALID "revoked".data) 0
        = ⟨false, none, false⟩ ∧
    handleUnlock "sk-a-v-6c1c7bc5".data (some "OLD".data) "e".data
        (fun _ => OnlineStatus.INVALID "revoked".data) 0
        = ⟨false, some "OLD".data, "revoked".data, false⟩ :=
  ⟨guard_never_falls_back_on_invalid.1 _ _ _,
   guard_never_falls_back_on_invalid.2.2.1 _ _ _ _ _ _ (by decide) rfl⟩

-- ===========================================================================
-- Claim C3
-- ===========================================================================

theorem splitOnDashAux_no_dash : ∀ (a acc : List Char), '-' ∉ a →
    splitOnDashAux a acc = [acc.reverse ++ a]
  | [], acc, _ => by simp [splitOnDashAux]
  | c :: cs, acc, h => by
    have hc : ¬(c = '-') := fun e => h (by simp [e])
    have hcs : '-' ∉ cs := fun hm => h (List.mem_cons_of_mem _ hm)
    simp [splitOnDashAux, hc, splitOnDashAux_no_dash cs (c :: acc) hcs]

theorem splitOnDashAux_dash : ∀ (a acc rest : List Char), '-' ∉ a →
    splitOnDashAux (a ++ '-' :: rest) acc = (acc.reverse ++ a) :: splitOnDashAux rest []
  | [], acc, rest, _ => by simp [splitOnDashAux]
  | c :: cs, acc, rest, h => by
    have hc : ¬(c = '-') := fun e => h (by simp [e])
    have hcs : '-' ∉ cs := fun hm => h (List.mem_cons_of_mem _ hm)
    simp [splitOnDashAux, hc, splitOnDashAux_dash cs (c :: acc) rest hcs]

theorem jsParseHex_of_hex_digits : ∀ (l : List Char), l ≠ [] →
    (∀ c ∈ l, c ∈ hexDigitChars) → jsParseHex l = some ((hexValue l : Int)) := by
  intro l hne hall
  have hfacts : ∀ c ∈ hexDigitChars, isJsWs c = false ∧ ¬(c = '-') ∧ ¬(c = '+') ∧
      isHexDigitC c = true ∧ ¬(c = 'x') ∧ ¬(c = 'X') := by decide
  cases l with
  | nil => exact absurd rfl hne
  | cons c cs =>
    obtain ⟨hws, hdash, hplus, _, _, _⟩ := hfacts c (hall c (by simp))
    have hdrop : (c :: cs).dropWhile isJsWs = c :: cs := by
      rw [List.dropWhile_cons, if_neg (by simp [hws])]
    have htake : (c :: cs).takeWhile isHexDigitC = c :: cs :=
      List.takeWhile_eq_self_iff.mpr (fun a ha => (hfacts a (hall a ha)).2.2.2.1)
    have hx : ¬(c = '0' ∧ (cs.headD ' ' = 'x' ∨ cs.headD ' ' = 'X')) := by
      rintro ⟨-, hx2⟩
      cases cs with
      | nil => simp at hx2
      | cons c2 cs2 =>
        obtain ⟨-, -, -, -, hx', hX'⟩ := hfacts c2 (hall c2 (by simp))
        rw [List.headD_cons] at hx2
        rcases hx2 with h | h
        · exact hx' h
        · exact hX' h
    simp only [jsParseHex, hdrop, List.headD_cons, List.tail_cons, if_neg hdash,
      if_neg (show ¬(c = '-' ∨ c = '+') by simp [hdash, hplus]), if_neg hx, htake,
      if_neg (show ¬(c :: cs = []) by simp), one_mul]

/-- Claim C3, amended: for a well-shaped 4-segment key `SK-exp-tc-sig` whose
expiry field is the unlimited literal or a nonempty hexadecimal string,
offline validation succeeds exactly when the signature equals the recomputed
uppercase-hex hash and the expiry field is `LIFETIME` or the current time is
less than OR EQUAL TO the decoded expiry (the source rejects only when
`Date.now()` is strictly greater, so a key checked at exactly its expiry
instant is still accepted, unlike the claim's strict `now < expiry`). -/
theorem verifyKeyOffline_signature_and_expiry :
    ∀ (exp tc sig : List Char) (now : Nat),
      '-' ∉ exp → '-' ∉ tc → '-' ∉ sig →
      (exp = "LIFETIME".data ∨ (exp ≠ [] ∧ ∀ c ∈ exp, c ∈ hexDigitChars)) →
      (verifyKeyOffline ("SK-".data ++ exp ++ '-' :: tc ++ '-' :: sig) now).valid =
        (decide (sig = expectedSigOf exp tc) &&
          (decide (exp = "LIFETIME".data) || decide (now ≤ hexValue exp))) := by
  intro exp tc sig now hexp htc hsig hdom
  have hshape : "SK-".data ++ exp ++ '-' :: tc ++ '-' :: sig
      = ['S', 'K'] ++ '-' :: (exp ++ '-' :: (tc ++ '-' :: sig)) := by simp
  have hsplit : splitOnDash ("SK-".data ++ exp ++ '-' :: tc ++ '-' :: sig)
      = ["SK".data, exp, tc, sig] := by
    rw [splitOnDash, hshape, splitOnDashAux_dash ['S', 'K'] [] _ (by decide),
      splitOnDashAux_dash exp [] _ hexp, splitOnDashAux_dash tc [] _ htc,
      splitOnDashAux_no_dash sig [] hsig]
    simp
  simp only [verifyKeyOffline, hsplit]
  norm_num
  by_cases hs : sig = expectedSigOf exp tc
  · rw [if_pos hs]
    by_cases hL : exp = "LIFETIME".data
    · simp [hs, hL]
    · obtain ⟨hne, hall⟩ := hdom.resolve_left hL
      rw [jsParseHex_of_hex_digits exp hne hall]
      by_cases hgt : ((hexValue exp : Int)) < (now : Int)
      · have hnle : ¬(now ≤ hexValue exp) := by
          have : hexValue exp < now := by exact_mod_cast hgt
          omega
        simp [hs, hL, hgt, hnle]
      · have hle : now ≤ hexValue exp := by
          have : ¬(hexValue exp < now) := fun h => hgt (by exact_mod_cast h)
          omega
        simp [hs, hL, hgt, hle]
  · rw [if_neg hs]
    simp [hs]

set_option maxRecDepth 4000 in
/-- Counterexample for claim C3 as frozen: the key `SK-A-V-6C1C7BC5` carries
a matching signature and decodes its expiry field `A` to 10; checked at
`now = 10` (not strictly before the expiry), the source still validates it
true, while the claim's `now < expiry` condition is false and the expiry
field is not the unlimited literal. -/
theorem verifyKeyOffline_boundary_counterexample :
    (verifyKeyOffline "SK-A-V-6C1C7BC5".data 10).valid = true ∧
    jsParseHex "A".data = some 10 ∧
    ("A".data == "LIFETIME".data) = false ∧
    decide (10 < 10) = false := by decide

/-- Witness for the amended claim C3 at the concrete key `SK-A-V-6C1C7BC5`
checked at `now = 3`. -/
theorem verifyKeyOffline_signature_and_expiry_witness :
    (verifyKeyOffline "SK-A-V-6C1C7BC5".data 3).valid =
      (decide ("6C1C7BC5".data = expectedSigOf "A".data "V".data) &&
        (decide ("A".data = "LIFETIME".data) || decide (3 ≤ hexValue "A".data))) :=
  verifyKeyOffline_signature_and_expiry "A".data "V".data "6C1C7BC5".data 3 (by decide)
    (by decide) (by decide) (Or.inr ⟨by decide, by decide⟩)

-- ===========================================================================
-- Claim C4
-- ===========================================================================

set_option maxRecDepth 4000 in
/-- Claim C4 (evidence of the code slip): ten consecutive classified
failures make the retry wrapper stop retrying after 9 waits, but it then
rethrows the 10th classified error itself — on the 10th failure `attempt`
reaches `MAX_RETRIES`, so the `else` branch rethrows and the loop-exit
`throw` of the terminal "could not connect after repeated attempts" message
is unreachable.  The raised message differs from the terminal one. -/
theorem retry_exhaustion_rethrows_classified_error :
    (appTsx.generateBatchWithRetry (fun _ => Except.error "Error 429: quota exceeded".data)
        : Except (List Char) Unit × List Nat)
      = (Except.error "Error 429: quota exceeded".data,
         [20000, 40000, 60000, 80000, 100000, 120000, 140000, 160000, 180000]) ∧
    ("Error 429: quota exceeded".data == appTsx.terminalRetryMessage) = false :=
  ⟨rfl, by decide⟩

-- ===========================================================================
-- Claim C5
-- ===========================================================================

/-- Claim C5: for a classified failure on (1-based) attempt `n`, the wait is
`(ceil(N)+3)` seconds when the error text embeds `retry in N s` (so an error
containing `retry in 12s` waits 15000 ms), otherwise `n*20` seconds for
quota errors, otherwise `5*2^(n-1)` seconds for overloaded errors; an error
matching neither classification propagates immediately with no wait. -/
theorem retry_wait_policy :
    (∀ (e : List Char) (n advice : Nat),
      appTsx.retryAdvice e = some advice →
      (appTsx.isQuota e || appTsx.isOverloaded e) = true →
      appTsx.waitTimeFor e n = advice * 1000 + 3000) ∧
    (∀ (e : List Char) (n : Nat),
      appTsx.retryAdvice e = none → appTsx.isQuota e = true →
      appTsx.waitTimeFor e n = n * 20000) ∧
    (∀ (e : List Char) (n : Nat),
      appTsx.retryAdvice e = none → appTsx.isQuota e = false →
      appTsx.isOverloaded e = true →
      appTsx.waitTimeFor e n = 5000 * 2 ^ (n - 1)) ∧
    (∀ n : Nat, appTsx.waitTimeFor "429: retry in 12s".data n = 15000) ∧
    (∀ (α : Type) (calls : Nat → Except (List Char) α) (e : List Char),
      calls 0 = Except.error e →
      (appTsx.isQuota e || appTsx.isOverloaded e) = false →
      appTsx.generateBatchWithRetry calls = (Except.error e, [])) := by
  refine ⟨?_, ?_, ?_, ?_, ?_⟩
  · intro e n advice hadv _
    simp [appTsx.waitTimeFor, hadv]
  · intro e n hadv hq
    simp [appTsx.waitTimeFor, hadv, hq, Nat.mul_comm]
  · intro e n hadv hq hov
    simp [appTsx.waitTimeFor, hadv, hq]
  · intro n
    have h12 : appTsx.retryAdvice "429: retry in 12s".data = some 12 := by decide
    simp [appTsx.waitTimeFor, h12]
  · intro α calls e hc hcls
    simp [appTsx.generateBatchWithRetry, appTsx.retryGo, hc, hcls]

/-- Witness for claim C5: concrete instantiations of every clause — a
service-advised wait of 12 s yields 15000 ms, a bare quota error on attempt
3 waits 60000 ms, a bare overload error on attempt 3 waits 20000 ms, and an
unclassified error propagates with no wait. -/
theorem retry_wait_policy_witness :
    appTsx.waitTimeFor "quota retry in 12s".data 7 = 15000 ∧
    appTsx.waitTimeFor "429: retry in 12s".data 7 = 15000 ∧
    appTsx.waitTimeFor "quota".data 3 = 3 * 20000 ∧
    appTsx.waitTimeFor "overloaded".data 3 = 5000 * 2 ^ (3 - 1) ∧
    (appTsx.generateBatchWithRetry (fun _ => Except.error "boom".data)
        : Except (List Char) Unit × List Nat) = (Except.error "boom".data, []) :=
  ⟨retry_wait_policy.1 "quota retry in 12s".data 7 12 (by decide) (by decide),
   retry_wait_policy.2.2.2.1 7,
   retry_wait_policy.2.1 "quota".data 3 (by decide) (by decide),
   retry_wait_policy.2.2.1 "overloaded".data 3 (by decide) (by decide) (by decide),
   retry_wait_policy.2.2.2.2 Unit (fun _ => Except.error "boom".data) "boom".data rfl
     (by decide)⟩

-- ===========================================================================
-- Claim C7
-- ===========================================================================

theorem mapWithIdx_overwrite_scene_number (startNum : Nat) :
    ∀ (l : List Scene) (j : Nat),
      (mapWithIdx (fun i s => { s with scene_number := startNum + i }) j l).map
          Scene.scene_number
        = List.range' (startNum + j) l.length
  | [], _ => rfl
  | s :: rest, j => by
    simp only [mapWithIdx, List.map_cons, List.length_cons, List.range'_succ]
    refine congrArg₂ _ rfl ?_
    have := mapWithIdx_overwrite_scene_number startNum rest (j + 1)
    simpa [Nat.add_assoc] using this

/-- Claim C7: `extendScript` (both copies) renumbers the normalized scenes
consecutively from `lastScene.scene_number + 1` regardless of the scene
numbers the model reports; with last scene 23 and a 5-scene response it
returns exactly 5 scenes numbered 24..28. -/
theorem extendScript_renumbers :
    (∀ (lastScene : Scene) (rawScenes : List RawScene),
      (appTsx.extendScript lastScene rawScenes).map Scene.scene_number
        = List.range' (lastScene.scene_number + 1) rawScenes.length) ∧
    (∀ (lastScene : Scene) (rawScenes : List RawScene),
      (geminiService.extendScript lastScene rawScenes).map Scene.scene_number
        = List.range' (lastScene.scene_number + 1) rawScenes.length) ∧
    (∀ (lastScene : Scene) (rawScenes : List RawScene),
      lastScene.scene_number = 23 → rawScenes.length = 5 →
      (appTsx.extendScript lastScene rawScenes).length = 5 ∧
      (appTsx.extendScript lastScene rawScenes).map Scene.scene_number
        = [24, 25, 26, 27, 28]) := by
  have happ : ∀ (lastScene : Scene) (rawScenes : List RawScene),
      (appTsx.extendScript lastScene rawScenes).map Scene.scene_number
        = List.range' (lastScene.scene_number + 1) rawScenes.length := by
    intro lastScene rawScenes
    show (mapWithIdx _ 0 (appTsx.mapJsonToScenes rawScenes)).map Scene.scene_number = _
    rw [mapWithIdx_overwrite_scene_number (lastScene.scene_number + 1)
      (appTsx.mapJsonToScenes rawScenes) 0]
    rw [appTsx.mapJsonToScenes, mapWithIdx_length]
  have hsvc : ∀ (lastScene : Scene) (rawScenes : List RawScene),
      (geminiService.extendScript lastScene rawScenes).map Scene.scene_number
        = List.range' (lastScene.scene_number + 1) rawScenes.length := by
    intro lastScene rawScenes
    show (mapWithIdx _ 0 (geminiService.mapJsonToScenes rawScenes)).map Scene.scene_number = _
    rw [mapWithIdx_overwrite_scene_number (lastScene.scene_number + 1)
      (geminiService.mapJsonToScenes rawScenes) 0]
    rw [geminiService.mapJsonToScenes, mapWithIdx_length]
  refine ⟨happ, hsvc, ?_⟩
  intro lastScene rawScenes h23 h5
  have hmap := happ lastScene rawScenes
  rw [h23, h5] at hmap
  constructor
  · have := congrArg List.length hmap
    simpa using this
  · rw [hmap]
    decide

/-- Witness for claim C7: extending a concrete scene numbered 23 with a
5-scene response yields exactly the scene numbers 24..28. -/
theorem extendScript_renumbers_witness :
    scene23.scene_number = 23 ∧ (List.replicate 5 emptyRawScene).length = 5 ∧
    (appTsx.extendScript scene23 (List.replicate 5 emptyRawScene)).length = 5 ∧
    (appTsx.extendScript scene23 (List.replicate 5 emptyRawScene)).map Scene.scene_number
      = [24, 25, 26, 27, 28] :=
  ⟨rfl, rfl,
   (extendScript_renumbers.2.2 scene23 (List.replicate 5 emptyRawScene) rfl rfl).1,
   (extendScript_renumbers.2.2 scene23 (List.replicate 5 emptyRawScene) rfl rfl).2⟩

-- ===========================================================================
-- Claim C10
-- ===========================================================================

/-- Claim C10: when `options.promptCount` is absent, a non-numeric string, or
not positive, the batched `generateScript` does not fail on it — it resolves
the target count to 5 and behaves exactly as if `promptCount` were the
number 5. -/
theorem generateScript_defaults_bad_count :
    ∀ (options : appTsx.VideoGenerationOptions) (gen : appTsx.BatchRequest → appTsx.BatchSuccess),
      (appTsx.rawTargetCount options.promptCount = none ∨
        ∃ v, appTsx.rawTargetCount options.promptCount = some v ∧ v ≤ 0) →
      appTsx.resolveTargetCount options.promptCount = 5 ∧
      appTsx.generateScript options gen =
        appTsx.generateScript
          ⟨options.idea, options.videoStyle, appTsx.PromptCount.num 5,
            options.dialogueLanguage, options.promptType⟩ gen := by
  intro options gen h
  have hres : appTsx.resolveTargetCount options.promptCount = 5 := by
    rcases h with h | ⟨v, hv, hle⟩
    · simp [appTsx.resolveTargetCount, h]
    · simp [appTsx.resolveTargetCount, hv, hle]
  refine ⟨hres, ?_⟩
  simp only [appTsx.generateScript]
  rw [hres]
  simp [appTsx.resolveTargetCount, appTsx.rawTargetCount]

/-- Witness for claim C10: concrete options whose prompt count is the
non-numeric string `abc` resolve to 5 and generate exactly as the same
options with prompt count 5. -/
theorem generateScript_defaults_bad_count_witness :
    appTsx.resolveTargetCount optionsBadCount.promptCount = 5 ∧
    appTsx.generateScript optionsBadCount compliantOracle =
      appTsx.generateScript
        ⟨optionsBadCount.idea, optionsBadCount.videoStyle, appTsx.PromptCount.num 5,
          optionsBadCount.dialogueLanguage, optionsBadCount.promptType⟩ compliantOracle :=
  generateScript_defaults_bad_count optionsBadCount compliantOracle (Or.inl (by decide))

-- ===========================================================================
-- Claim C8
-- ===========================================================================

set_option maxRecDepth 8000 in
/-- Counterexample for claim C8 as frozen: for a raw item whose dialogue line
is empty, the description still ends with the placeholder segment
`Thoại: Không có`, so it is not the pipe-join of only the non-empty
source-backed segments (which would be just the scene/time segment). -/
theorem script_description_placeholder_counterexample :
    (appTsx.mapJsonToScenes [emptyRawScene]).map Scene.script_description
      = ["Cảnh 1 (Thời lượng: 0s - 5s) | Thoại: Không có".data] ∧
    cleanAttribute (emptyRawScene.dialogue.bind RawDialogue.line) = [] ∧
    ((appTsx.mapJsonToScenes [emptyRawScene]).map Scene.script_description
        == ["Cảnh 1 (Thời lượng: 0s - 5s)".data]) = false := by decide

/-- Claim C8, amended: the App.tsx description is the pipe-joined
concatenation of exactly the non-empty segments among scene+time,
continuity, environment, characters, camera, visual style and dialogue, in
that fixed order, each omitted when its source fields are empty or
none-sentinels — EXCEPT the dialogue segment, which is never omitted: an
empty cleaned dialogue line contributes the placeholder `Thoại: Không có`
instead.  (The scene+time segment is always present as well.) -/
theorem script_description_segments :
    (∀ (item : RawScene) (index : Nat),
      (toSceneApp index item).script_description
        = List.intercalate " | ".data ((segmentsApp item index).filter (· ≠ []))) ∧
    (∀ (item : RawScene) (index : Nat), sceneTimeSegment item index ≠ []) ∧
    (∀ item : RawScene, cleanAttribute item.continuity_reference = [] →
      continuitySegmentApp item = []) ∧
    (∀ item : RawScene,
      cleanAttribute (item.environment.bind RawEnv.location) = [] →
      cleanAttribute (item.environment.bind RawEnv.weather) = [] →
      soundsOf item = [] → envSegment item = []) ∧
    (∀ item : RawScene, item.characters = none → charSegment item = []) ∧
    (∀ item : RawScene,
      cleanAttribute (item.camera.bind RawCamera.shot_type) = [] →
      cleanAttribute (item.camera.bind RawCamera.movement) = [] →
      cameraSegment item = []) ∧
    (∀ item : RawScene,
      cleanAttribute (item.visual_style.bind RawStyle.style) = [] →
      cleanAttribute (item.visual_style.bind RawStyle.lighting) = [] →
      styleSegment item = []) ∧
    (∀ item : RawScene, cleanAttribute (item.dialogue.bind RawDialogue.line) = [] →
      dialogueSegment item = "Thoại: Không có".data) ∧
    (∀ item : RawScene, dialogueSegment item ≠ []) := by
  refine ⟨fun _ _ => rfl, ?_, ?_, ?_, ?_, ?_, ?_, ?_, ?_⟩
  · intro item index
    simp [sceneTimeSegment]
  · intro item h
    simp [continuitySegmentApp, h]
  · intro item h1 h2 h3
    simp [envSegment, h1, h2, h3]
    rfl
  · intro item h
    simp [charSegment, h]
  · intro item h1 h2
    simp [cameraSegment, h1, h2]
  · intro item h1 h2
    simp [styleSegment, h1, h2]
  · intro item h
    simp [dialogueSegment, h]
  · intro item
    by_cases h : cleanAttribute (item.dialogue.bind RawDialogue.line) = [] <;>
      simp [dialogueSegment, h]

/-- Witness for the amended claim C8 at the all-empty raw item: the
description is the filtered pipe-join, the continuity segment is omitted,
and the dialogue segment is the placeholder. -/
theorem script_description_segments_witness :
    (toSceneApp 0 emptyRawScene).script_description
      = List.intercalate " | ".data ((segmentsApp emptyRawScene 0).filter (· ≠ [])) ∧
    continuitySegmentApp emptyRawScene = [] ∧
    dialogueSegment emptyRawScene = "Thoại: Không có".data :=
  ⟨script_description_segments.1 emptyRawScene 0,
   script_description_segments.2.2.1 emptyRawScene (by decide),
   script_description_segments.2.2.2.2.2.2.2.1 emptyRawScene (by decide)⟩

-- ===========================================================================
-- Claim C9
-- ===========================================================================

set_option maxRecDepth 8000 in
/-- Counterexample for claim C9: on two raw items with empty continuity
references the two copies of `mapJsonToScenes` disagree — at position 1 the
geminiService.ts copy emits the extra segment `Continuity: [Missing]` while
the App.tsx copy omits the continuity segment. -/
theorem mapJsonToScenes_copies_differ_counterexample :
    (geminiService.mapJsonToScenes [emptyRawScene, emptyRawScene]).map Scene.script_description
      = ["Cảnh 1 (Thời lượng: 0s - 5s) | Thoại: Không có".data,
         "Cảnh 2 (Thời lượng: 0s - 5s) | Continuity: [Missing] | Thoại: Không có".data] ∧
    (appTsx.mapJsonToScenes [emptyRawScene, emptyRawScene]).map Scene.script_description
      = ["Cảnh 1 (Thời lượng: 0s - 5s) | Thoại: Không có".data,
         "Cảnh 2 (Thời lượng: 0s - 5s) | Thoại: Không có".data] ∧
    (geminiService.mapJsonToScenes [emptyRawScene, emptyRawScene]
        == appTsx.mapJsonToScenes [emptyRawScene, emptyRawScene]) = false := by decide

theorem toSceneSvc_eq_toSceneApp (i : Nat) (item : RawScene)
    (h : i = 0 ∨ cleanAttribute item.continuity_reference ≠ []) :
    toSceneSvc i item = toSceneApp i item := by
  rcases h with h0 | hc
  · subst h0
    by_cases hc : cleanAttribute item.continuity_reference = [] <;>
      simp [toSceneSvc, toSceneApp, segmentsSvc, segmentsApp, continuitySegmentSvc,
        continuitySegmentApp, hc]
  · simp [toSceneSvc, toSceneApp, segmentsSvc, segmentsApp, continuitySegmentSvc,
      continuitySegmentApp, hc]

theorem mapWithIdx_svc_eq_app : ∀ (l : List RawScene) (i : Nat), 1 ≤ i →
    (∀ item ∈ l, cleanAttribute item.continuity_reference ≠ []) →
    mapWithIdx toSceneSvc i l = mapWithIdx toSceneApp i l
  | [], _, _, _ => rfl
  | x :: xs, i, hi, h => by
    simp only [mapWithIdx]
    exact congrArg₂ _ (toSceneSvc_eq_toSceneApp i x (Or.inr (h x (by simp))))
      (mapWithIdx_svc_eq_app xs (i + 1) (by omega)
        (fun item hm => h item (List.mem_cons_of_mem _ hm)))

/-- Claim C9, amended: the two copies of `mapJsonToScenes` compute identical
Scene lists for every raw list in which every item after the first has a
nonempty cleaned continuity reference; they differ otherwise only through
the geminiService.ts copy's `Continuity: [Missing]` placeholder at positions
after the first. -/
theorem mapJsonToScenes_copies_agree :
    ∀ raw : List RawScene,
      (∀ item ∈ raw.tail, cleanAttribute item.continuity_reference ≠ []) →
      geminiService.mapJsonToScenes raw = appTsx.mapJsonToScenes raw := by
  intro raw h
  cases raw with
  | nil => rfl
  | cons x rest =>
    show mapWithIdx toSceneSvc 0 (x :: rest) = mapWithIdx toSceneApp 0 (x :: rest)
    simp only [mapWithIdx]
    exact congrArg₂ _ (toSceneSvc_eq_toSceneApp 0 x (Or.inl rfl))
      (mapWithIdx_svc_eq_app rest 1 (by omega) (by simpa using h))

set_option maxRecDepth 8000 in
/-- Witness for the amended claim C9: on a concrete two-item list whose
second item carries a nonempty continuity reference, the two copies agree. -/
theorem mapJsonToScenes_copies_agree_witness :
    geminiService.mapJsonToScenes
        [emptyRawScene, ⟨none, none, some "x".data, none, none, none, none, none, none⟩]
      = appTsx.mapJsonToScenes
        [emptyRawScene, ⟨none, none, some "x".data, none, none, none, none, none, none⟩] :=
  mapJsonToScenes_copies_agree _ (by decide)

-- ===========================================================================
-- Claim C6
-- ===========================================================================

theorem mem_space_of_ws_collapseWsAux (c : Char) (hws : isJsWs c = true) :
    ∀ (l : List Char) (b : Bool), c ∈ collapseWsAux b l → c = ' ' := by
  intro l
  induction l with
  | nil => intro b hm; simp [collapseWsAux] at hm
  | cons x rest ih =>
    intro b hm
    by_cases hx : isJsWs x = true
    · cases b with
      | true =>
        simp only [collapseWsAux, hx, if_true] at hm
        exact ih true hm
      | false =>
        simp only [collapseWsAux, hx, if_true] at hm
        rcases List.mem_cons.mp hm with h | h
        · exact h
        · exact ih true h
    · simp only [collapseWsAux, hx, if_false, Bool.false_eq_true] at hm
      rcases List.mem_cons.mp hm with h | h
      · subst h
        exact absurd hws hx
      · exact ih false h

theorem head?_collapseWsAux_true :
    ∀ (l : List Char) (c : Char), (collapseWsAux true l).head? = some c → isJsWs c = false := by
  intro l
  induction l with
  | nil => intro c h; simp [collapseWsAux] at h
  | cons x rest ih =>
    intro c h
    by_cases hx : isJsWs x = true
    · exact ih c (by simpa [collapseWsAux, hx] using h)
    · simp [collapseWsAux, hx] at h
      rw [← h]
      simpa using hx

theorem chain'_collapseWsAux : ∀ (l : List Char) (b : Bool),
    List.Chain' notTwoWs (collapseWsAux b l) := by
  intro l
  induction l with
  | nil => intro b; simp [collapseWsAux]
  | cons x rest ih =>
    intro b
    by_cases hx : isJsWs x = true
    · cases b with
      | true =>
        rw [show collapseWsAux true (x :: rest) = collapseWsAux true rest from by
          simp [collapseWsAux, hx]]
        exact ih true
      | false =>
        rw [show collapseWsAux false (x :: rest) = ' ' :: collapseWsAux true rest from by
          simp [collapseWsAux, hx]]
        rw [List.chain'_cons']
        refine ⟨?_, ih true⟩
        intro y hy
        have := head?_collapseWsAux_true rest y hy
        simp [notTwoWs, this]
    · rw [show collapseWsAux b (x :: rest) = x :: collapseWsAux false rest from by
        simp [collapseWsAux, hx]]
      rw [List.chain'_cons']
      refine ⟨?_, ih false⟩
      intro y hy
      simp [notTwoWs, hx]

theorem chain'_dropWhile {α : Type} {R : α → α → Prop} (p : α → Bool) :
    ∀ (l : List α), List.Chain' R l → List.Chain' R (l.dropWhile p)
  | [], h => by simp
  | x :: rest, h => by
    rw [List.dropWhile_cons]
    by_cases hx : p x = true
    · rw [if_pos hx]
      exact chain'_dropWhile p rest h.tail
    · rw [if_neg hx]
      exact h

theorem chain'_reverse_notTwoWs (l : List Char) (h : List.Chain' notTwoWs l) :
    List.Chain' notTwoWs l.reverse := by
  rw [List.chain'_reverse]
  exact h.imp (fun a b hab => fun hba => hab ⟨hba.2, hba.1⟩)

theorem head?_dropWhile_not {α : Type} (p : α → Bool) :
    ∀ (l : List α) (c : α), (l.dropWhile p).head? = some c → p c = false
  | [], c, h => by simp at h
  | x :: rest, c, h => by
    rw [List.dropWhile_cons] at h
    by_cases hx : p x = true
    · rw [if_pos hx] at h
      exact head?_dropWhile_not p rest c h
    · rw [if_neg hx] at h
      simp at h
      subst h
      simpa using hx

theorem getLast?_dropWhile_of {α : Type} (p : α → Bool) :
    ∀ (l : List α) (c : α), (l.dropWhile p).getLast? = some c → l.getLast? = some c
  | [], c, h => by simp at h
  | x :: rest, c, h => by
    rw [List.dropWhile_cons] at h
    by_cases hx : p x = true
    · rw [if_pos hx] at h
      have hr := getLast?_dropWhile_of p rest c h
      rw [List.getLast?_cons, hr]
      simp
    · rw [if_neg hx] at h
      exact h

theorem mem_of_mem_trimJs (l : List Char) (c : Char) (h : c ∈ trimJs l) : c ∈ l := by
  rw [trimJs, List.mem_reverse] at h
  have h1 := List.Sublist.mem h (List.dropWhile_sublist _)
  rw [List.mem_reverse] at h1
  exact List.Sublist.mem h1 (List.dropWhile_sublist _)

theorem head?_trimJs_not_ws (l : List Char) (c : Char) (h : (trimJs l).head? = some c) :
    isJsWs c = false := by
  rw [trimJs, List.head?_reverse] at h
  have h2 := getLast?_dropWhile_of isJsWs _ c h
  rw [List.getLast?_reverse] at h2
  exact head?_dropWhile_not isJsWs l c h2

theorem getLast?_trimJs_not_ws (l : List Char) (c : Char) (h : (trimJs l).getLast? = some c) :
    isJsWs c = false := by
  rw [trimJs, List.getLast?_reverse] at h
  exact head?_dropWhile_not isJsWs _ c h

theorem chain'_trimJs (l : List Char) (h : List.Chain' notTwoWs l) :
    List.Chain' notTwoWs (trimJs l) := by
  rw [trimJs]
  exact chain'_reverse_notTwoWs _
    (chain'_dropWhile _ _ (chain'_reverse_notTwoWs _ (chain'_dropWhile _ _ h)))

/-- Claim C6: the output of `cleanForJson` contains no line-break character
(`\r` or `\n`), has no two adjacent whitespace characters (so no run of two
or more), and neither starts nor ends with whitespace (its head and last
characters, when they exist, are non-whitespace; `x` is a non-whitespace
default). -/
theorem cleanForJson_single_line :
    ∀ t : Option (List Char),
      (∀ c ∈ cleanForJson t, c ≠ '\n' ∧ c ≠ '\r') ∧
      List.Chain' notTwoWs (cleanForJson t) ∧
      isJsWs ((cleanForJson t).headD 'x') = false ∧
      isJsWs ((cleanForJson t).getLastD 'x') = false := by
  intro t
  match t with
  | none =>
    refine ⟨by simp [cleanForJson], by simp [cleanForJson], by decide, by decide⟩
  | some s =>
    by_cases hs : s = []
    · subst hs
      refine ⟨by simp [cleanForJson], by simp [cleanForJson], by decide, by decide⟩
    · have hcf : cleanForJson (some s) = trimJs (collapseWs (replaceBreaks s)) := by
        simp [cleanForJson, hs]
      rw [hcf]
      refine ⟨?_, ?_, ?_, ?_⟩
      · intro c hc
        have hmem : c ∈ collapseWsAux false (replaceBreaks s) := mem_of_mem_trimJs _ c hc
        constructor
        · intro e
          subst e
          exact absurd (mem_space_of_ws_collapseWsAux '\n' (by decide) _ false hmem) (by decide)
        · intro e
          subst e
          exact absurd (mem_space_of_ws_collapseWsAux '\r' (by decide) _ false hmem) (by decide)
      · exact chain'_trimJs _ (chain'_collapseWsAux _ false)
      · cases hh : (trimJs (collapseWs (replaceBreaks s))).head? with
        | none => rw [List.headD_eq_head?, hh]; decide
        | some c =>
          rw [List.headD_eq_head?, hh]
          exact head?_trimJs_not_ws _ c hh
      · cases hh : (trimJs (collapseWs (replaceBreaks s))).getLast? with
        | none => rw [List.getLastD_eq_getLast?, hh]; decide
        | some c =>
          rw [List.getLastD_eq_getLast?, hh]
          exact getLast?_trimJs_not_ws _ c hh

/-- Witness for claim C6 at a concrete string with CRLF, LF, tab and double
spaces: the result is the single-line collapse, and its head and last
characters are non-whitespace. -/
theorem cleanForJson_single_line_witness :
    cleanForJson (some " a\r\n\n b\t c ".data) = "a b c".data ∧
    isJsWs ((cleanForJson (some " a\r\n\n b\t c ".data)).headD 'x') = false ∧
    isJsWs ((cleanForJson (some " a\r\n\n b\t c ".data)).getLastD 'x') = false :=
  ⟨by decide, (cleanForJson_single_line _).2.2.1, (cleanForJson_single_line _).2.2.2⟩
